import Mathlib

/-!
Verification development for the moonlight in-memory key-value store.

The Go sources are embedded shallowly:

* Go byte strings become `GoStr` (lists of byte values).
* Go maps (`map[string]Entity`, `map[string]int64`) become association
  lists with Go map semantics (assignment replaces, delete removes,
  lookup returns an optional value).
* `time.Now().UnixNano()` becomes an explicit `now : Int` parameter that
  is threaded through every operation that reads the clock; a single
  sequential execution step observes one instant.
* Go `int64` arithmetic that can overflow is modelled with explicit
  wrap-around (`wrap64`) or saturation (`sat64`, used by `time.Sub`).
* Fallible Go code returns `Option` or a result carrying an error value;
  a Go runtime panic is modelled as a distinguished error outcome.
-/

/-- A Go string: an opaque byte string, modelled as a list of byte values. -/
abbrev GoStr := List Nat

/-- Embed an ASCII Lean string literal as a Go byte string. -/
def gs (s : String) : GoStr := s.data.map Char.toNat

/-- Lookup in an association list, mirroring a Go map read
(`v, ok := m[k]`). -/
def alookup {α β : Type} [DecidableEq α] : List (α × β) → α → Option β
  | [], _ => none
  | (k, v) :: r, key => if k = key then some v else alookup r key

/-- Assignment into an association list, mirroring a Go map write
(`m[k] = v`): replaces an existing binding, otherwise appends. -/
def ainsert {α β : Type} [DecidableEq α] : List (α × β) → α → β → List (α × β)
  | [], k, v => [(k, v)]
  | (k0, v0) :: r, k, v =>
      if k0 = k then (k, v) :: r else (k0, v0) :: ainsert r k v

/-- Deletion from an association list, mirroring Go `delete(m, k)`. -/
def aremove {α β : Type} [DecidableEq α] : List (α × β) → α → List (α × β)
  | [], _ => []
  | (k0, v) :: r, k =>
      if k0 = k then aremove r k else (k0, v) :: aremove r k

/-- Go `int64` wrap-around: reduce an unbounded integer into the range
of a signed 64-bit machine word. -/
def wrap64 (x : Int) : Int := (x + 2 ^ 63) % 2 ^ 64 - 2 ^ 63

/-- Saturation of a difference into the `time.Duration` range, as done
by Go `time.Time.Sub` (and hence `time.Until`). -/
def sat64 (x : Int) : Int :=
  if x > 2 ^ 63 - 1 then 2 ^ 63 - 1
  else if x < -(2 ^ 63) then -(2 ^ 63)
  else x

/-- Value of a little-endian byte list (inverse of the fixed-width
encoders below). -/
def leNat : List Nat → Nat
  | [] => 0
  | b :: r => b + 256 * leNat r

/-- Little-endian 4-byte encoding, as in `binary.LittleEndian.PutUint32`. -/
def putU32 (n : Nat) : List Nat :=
  [n % 256, n / 256 % 256, n / 256 ^ 2 % 256, n / 256 ^ 3 % 256]

/-- Little-endian 8-byte encoding, as in `binary.LittleEndian.PutUint64`. -/
def putU64 (n : Nat) : List Nat :=
  [n % 256, n / 256 % 256, n / 256 ^ 2 % 256, n / 256 ^ 3 % 256,
   n / 256 ^ 4 % 256, n / 256 ^ 5 % 256, n / 256 ^ 6 % 256, n / 256 ^ 7 % 256]

/-- Go conversion `uint64(x)` of a signed 64-bit value. -/
def i64ToU64 (x : Int) : Nat := (x % 2 ^ 64).toNat

/-- Go conversion `int64(u)` of an unsigned 64-bit value. -/
def u64ToI64 (n : Nat) : Int :=
  if n < 2 ^ 63 then (n : Int) else (n : Int) - 2 ^ 64

/-- Go `strconv` digit run: value of a non-empty all-digit byte string. -/
def parseDigitsAux : GoStr → Nat → Option Nat
  | [], acc => some acc
  | b :: r, acc =>
      if 48 ≤ b ∧ b ≤ 57 then parseDigitsAux r (acc * 10 + (b - 48)) else none

/-- Digit-run parser; fails on an empty string or a non-digit byte. -/
def parseDigits : GoStr → Option Nat
  | [] => none
  | s => parseDigitsAux s 0

/-- Mathematical value of a base-10 signed integer literal accepted by
Go `strconv.ParseInt` (optional sign, then one or more digits); `none`
exactly when `ParseInt` reports a syntax error. -/
def goParseIntVal (s : GoStr) : Option Int :=
  match s with
  | 43 :: rest => (parseDigits rest).map (fun n => (n : Int))
  | 45 :: rest => (parseDigits rest).map (fun n => -(n : Int))
  | _ => (parseDigits s).map (fun n => (n : Int))

/-- `strconv.ParseInt(s, 10, 64)` when the caller treats any error as a
failure: syntax errors and range errors both yield `none`. -/
def goParseInt64 (s : GoStr) : Option Int :=
  (goParseIntVal s).bind fun v =>
    if -(2 ^ 63) ≤ v ∧ v ≤ 2 ^ 63 - 1 then some v else none

/-- `strconv.ParseInt(s, 10, 64)` when the caller ignores range errors
(as the RESP decoder does): a syntax error yields `none`, an
out-of-range literal yields the clamped extreme value that `ParseInt`
returns alongside `ErrRange`. -/
def goParseInt64Clamped (s : GoStr) : Option Int :=
  (goParseIntVal s).map fun v =>
    if v > 2 ^ 63 - 1 then 2 ^ 63 - 1
    else if v < -(2 ^ 63) then -(2 ^ 63)
    else v

/-- Byte-wise ASCII upper-casing, the restriction of `strings.ToUpper`
to the ASCII command vocabulary used by the handlers. -/
def asciiUpper (b : Nat) : Nat := if 97 ≤ b ∧ b ≤ 122 then b - 32 else b

/-- `strings.ToUpper` on an ASCII byte string. -/
def goToUpper (s : GoStr) : GoStr := s.map asciiUpper

namespace resp

/-- RESP type identifier bytes from `internal/resp/model.go`. -/
def TypeSimpleString : Nat := 43

/-- The RESP error marker byte. -/
def TypeError : Nat := 45

/-- The RESP integer marker byte. -/
def TypeInteger : Nat := 58

/-- The RESP bulk string marker byte. -/
def TypeBulkString : Nat := 36

/-- The RESP array marker byte. -/
def TypeArray : Nat := 42

/-- The `resp.Value` struct: one field per Go struct field, with the Go
zero value reachable as `Value.mk 0 [] 0 [] false`. -/
inductive Value where
  | mk (typ : Nat) (string : GoStr) (integer : Int) (array : List Value) (isNull : Bool)

/-- The `Type` field of a `resp.Value`. -/
def Value.typ : Value → Nat
  | .mk t _ _ _ _ => t

/-- The `String` field of a `resp.Value`. -/
def Value.string : Value → GoStr
  | .mk _ s _ _ _ => s

/-- The `Integer` field of a `resp.Value`. -/
def Value.integer : Value → Int
  | .mk _ _ n _ _ => n

/-- The `Array` field of a `resp.Value`. -/
def Value.array : Value → List Value
  | .mk _ _ _ a _ => a

/-- The `IsNull` field of a `resp.Value`. -/
def Value.isNull : Value → Bool
  | .mk _ _ _ _ b => b

/-- `resp.MakeSimpleString`. -/
def MakeSimpleString (s : GoStr) : Value := .mk TypeSimpleString s 0 [] false

/-- `resp.MakeError`. -/
def MakeError (s : GoStr) : Value := .mk TypeError s 0 [] false

/-- `resp.MakeErrorWrongNumberOfArguments`. -/
def MakeErrorWrongNumberOfArguments (cmd : String) : Value :=
  MakeError (gs ("wrong number of arguments for " ++ cmd ++ " command"))

/-- `resp.MakeBulkString`. -/
def MakeBulkString (s : GoStr) : Value := .mk TypeBulkString s 0 [] false

/-- `resp.MakeNilBulkString`: the null bulk string reply. -/
def MakeNilBulkString : Value := .mk TypeBulkString [] 0 [] true

/-- `resp.MakeInteger`. -/
def MakeInteger (n : Int) : Value := .mk TypeInteger [] n [] false

/-- `resp.MakeArray`. -/
def MakeArray (vs : List Value) : Value := .mk TypeArray [] 0 vs false

end resp

namespace storage

/-- `storage.DataType` constants (`iota + 1`): `TypeString = 1`. -/
def TypeString : Nat := 1

/-- The reserved List type tag (2). -/
def TypeList : Nat := 2

/-- The reserved Set type tag (3). -/
def TypeSet : Nat := 3

/-- The Hash type tag (4). -/
def TypeHash : Nat := 4

/-- The reserved ZSet type tag (5). -/
def TypeZSet : Nat := 5

/-- The dynamic value held in an `Entity.Value interface` field: either
a Go string or the nil interface (as left behind by the unimplemented
restore branches). -/
inductive GoVal where
  | str (s : GoStr)
  | interfaceNil
  deriving DecidableEq, Repr

/-- Go type assertion `v.(string)`; the callers below only apply it to
entities whose type tag is `TypeString`, for which the value is always
a string. The nil case would be a runtime panic in Go. -/
def GoVal.goString : GoVal → GoStr
  | .str s => s
  | .interfaceNil => []

/-- `storage.Entity`: a type tag byte plus the dynamic value. -/
structure Entity where
  typ : Nat
  value : GoVal
  deriving DecidableEq, Repr

/-- The error value `storage.ErrWrongType`. -/
inductive GoError where
  | wrongType
  deriving DecidableEq, Repr

/-- `storage.MapStorage`: the value table and the parallel expiration
table (nanosecond deadlines), as Go maps. -/
structure MapStorage where
  data : List (GoStr × Entity)
  expires : List (GoStr × Int)
  deriving DecidableEq, Repr

/-- `storage.NewMapStorage`: both tables empty. -/
def NewMapStorage : MapStorage := ⟨[], []⟩

/-- Expiry status constant `ExpNotFound = -2`. -/
def ExpNotFound : Int := -2

/-- Expiry status constant `ExpNoTimeout = -1`. -/
def ExpNoTimeout : Int := -1

/-- Expiry status constant `ExpActive = 1`. -/
def ExpActive : Int := 1

/-- `storage.SetOptions`. -/
structure SetOptions where
  TTL : Int := 0
  KeepTTL : Bool := false
  NX : Bool := false
  XX : Bool := false
  deriving DecidableEq, Repr

/-- `MapStorage.Get`: returns `(value, present, error)` and the possibly
mutated store. The read-lock phase looks up both tables; a missing key
or a non-String tag returns early; an expired entry is re-checked under
the write lock (in this sequential model the re-read sees the same
state) and deleted from both tables. -/
def Get (now : Int) (m : MapStorage) (key : GoStr) :
    (GoStr × Bool × Option GoError) × MapStorage :=
  let expOpt := alookup m.expires key
  let entOpt := alookup m.data key
  match entOpt with
  | none => (([], false, none), m)
  | some entity =>
    if entity.typ ≠ TypeString then (([], false, some GoError.wrongType), m)
    else
      match expOpt with
      | some exp =>
        if now > exp then
          -- write lock taken; re-check expiration and presence
          match alookup m.expires key with
          | some exp2 =>
            if now > exp2 then
              (([], false, none),
               ⟨aremove m.data key, aremove m.expires key⟩)
            else
              match alookup m.data key with
              | some ent2 =>
                if ent2.typ ≠ TypeString then
                  (([], false, some GoError.wrongType), m)
                else ((ent2.value.goString, true, none), m)
              | none => (([], false, none), m)
          | none =>
            match alookup m.data key with
            | some ent2 =>
              if ent2.typ ≠ TypeString then
                (([], false, some GoError.wrongType), m)
              else ((ent2.value.goString, true, none), m)
            | none => (([], false, none), m)
        else ((entity.value.goString, true, none), m)
      | none => ((entity.value.goString, true, none), m)

/-- `MapStorage.Set`: resolves existence (cleaning up an already expired
entry first), applies the NX/XX gates, writes the String entity and
then resolves the expiration per the options. Returns whether the write
was applied. -/
def Set (now : Int) (m : MapStorage) (key value : GoStr) (options : SetOptions) :
    Bool × MapStorage :=
  let exists0 := (alookup m.data key).isSome
  -- key exists but is expired: clean it up now so the logic below
  -- treats it as new
  let cleanup : MapStorage × Bool :=
    if exists0 then
      match alookup m.expires key with
      | some exp =>
        if now > exp then
          (⟨aremove m.data key, aremove m.expires key⟩, false)
        else (m, true)
      | none => (m, true)
    else (m, false)
  let m1 := cleanup.1
  let exists1 := cleanup.2
  if options.NX ∧ exists1 then (false, m1)
  else if options.XX ∧ ¬exists1 then (false, m1)
  else
    let m2 : MapStorage :=
      ⟨ainsert m1.data key ⟨TypeString, GoVal.str value⟩, m1.expires⟩
    let m3 : MapStorage :=
      if options.KeepTTL then
        -- KEEPTTL retains any existing deadline; for a freshly created
        -- key it behaves like no TTL
        if ¬exists1 then ⟨m2.data, aremove m2.expires key⟩ else m2
      else if options.TTL = 0 then ⟨m2.data, aremove m2.expires key⟩
      else ⟨m2.data, ainsert m2.expires key (wrap64 (now + options.TTL))⟩
    (true, m3)

/-- `MapStorage.Delete`: removes the key from both tables; returns
whether the key existed. -/
def Delete (m : MapStorage) (key : GoStr) : Bool × MapStorage :=
  match alookup m.data key with
  | some _ => (true, ⟨aremove m.data key, aremove m.expires key⟩)
  | none => (false, m)

/-- `MapStorage.Expiry`: returns `(remaining nanoseconds, status)` and
the possibly mutated store, deleting a key whose deadline has passed
(re-checked under the write lock as in `Get`). -/
def Expiry (now : Int) (m : MapStorage) (key : GoStr) :
    (Int × Int) × MapStorage :=
  match alookup m.data key with
  | none => ((0, ExpNotFound), m)
  | some _ =>
    match alookup m.expires key with
    | none => ((0, ExpNoTimeout), m)
    | some exp =>
      if now > exp then
        -- write lock taken; re-check presence and expiration
        match alookup m.data key with
        | none => ((0, ExpNotFound), m)
        | some _ =>
          match alookup m.expires key with
          | none => ((0, ExpNoTimeout), m)
          | some exp2 =>
            if now > exp2 then
              ((0, ExpNotFound),
               ⟨aremove m.data key, aremove m.expires key⟩)
            else ((exp2 - now, ExpActive), m)
      else ((exp - now, ExpActive), m)

/-- `MapStorage.Persist`: if the key is present in both tables, removes
the expiration entry and returns 1, otherwise returns 0. The deadline
itself is never inspected. -/
def Persist (m : MapStorage) (key : GoStr) : Int × MapStorage :=
  let ok := (alookup m.data key).isSome
  let hasExp := (alookup m.expires key).isSome
  if ¬ok ∨ ¬hasExp then (0, m)
  else
    -- write lock taken; re-check (unchanged in this sequential model)
    let ok2 := (alookup m.data key).isSome
    let hasExp2 := (alookup m.expires key).isSome
    if ¬ok2 ∨ ¬hasExp2 then (0, m)
    else (1, ⟨m.data, aremove m.expires key⟩)

end storage

namespace storage

/-- The `writeString` helper: 4-byte little-endian length then the raw
bytes. -/
def writeString (s : GoStr) : List Nat := putU32 s.length ++ s

/-- Bytes produced for the value part of one snapshot record. The
String case writes the length-prefixed value; the List/Set/Hash/ZSet
cases are unimplemented in the source and write nothing, as does an
unknown tag. `none` models the type-assertion panic on a String-tagged
entity whose dynamic value is not a string (unreachable through the
public operations). -/
def snapshotValueBytes (e : Entity) : Option (List Nat) :=
  if e.typ = TypeString then
    match e.value with
    | .str v => some (writeString v)
    | .interfaceNil => none
  else some []

/-- Serialization of the value table in iteration order: for each entry
a 13-byte header (u32 key length, u64 deadline with 0 meaning none,
one type tag byte), the key bytes and the value bytes. -/
def snapshotList (expires : List (GoStr × Int)) :
    List (GoStr × Entity) → Option (List Nat)
  | [] => some []
  | (key, e) :: rest =>
    match snapshotValueBytes e, snapshotList expires rest with
    | some vb, some rb =>
        some (putU32 key.length ++
              putU64 (i64ToU64 ((alookup expires key).getD 0)) ++
              [e.typ % 256] ++ key ++ vb ++ rb)
    | _, _ => none

/-- `MapStorage.Snapshot`: serialize the shard data. -/
def Snapshot (m : MapStorage) : Option (List Nat) := snapshotList m.expires m.data

/-- The `readString` helper: reads a u32 length then that many bytes;
`none` when the stream is too short (an `io.ReadFull` error). -/
def readString (bs : List Nat) : Option (GoStr × List Nat) :=
  if bs.length < 4 then none
  else if (bs.drop 4).length < leNat (bs.take 4) then none
  else some ((bs.drop 4).take (leNat (bs.take 4)),
             (bs.drop 4).drop (leNat (bs.take 4)))

/-- The loop body of `MapStorage.Restore`, indexed by fuel to make the
recursion structural: each iteration reads one record (at least 13
bytes), so the fuel supplied by `Restore` can never run out and the
fuel-exhaustion branch is unreachable. Records are read until end of
stream and added to the tables; a record whose positive deadline is
already in the past is skipped. After the header and the key, only the
String tag reads value bytes (via `readString`); every other tag falls
through the unimplemented switch, leaving the value as the nil
interface and consuming nothing, after which the shared insertion code
runs. `none` models a returned read error; note that no record ever
makes the loop fail because of its type tag. -/
def restoreLoop (now : Int) : Nat → MapStorage → List Nat → Option MapStorage
  | 0, _, _ => none
  | fuel + 1, m, bs =>
    if bs.isEmpty then some m   -- io.EOF on the header read: end of stream
    else if bs.length < 13 then none   -- short header: read error
    else
      let header := bs.take 13
      let r1 := bs.drop 13
      let keyLen := leNat (header.take 4)
      let exp := u64ToI64 (leNat ((header.drop 4).take 8))
      let tag := header.getD 12 0
      if r1.length < keyLen then none   -- short key: read error
      else
        let key := r1.take keyLen
        let r2 := r1.drop keyLen
        if tag = TypeString then
          match readString r2 with
          | none => none
          | some (s, r3) =>
            if 0 < exp ∧ exp < now then restoreLoop now fuel m r3
            else
              restoreLoop now fuel
                ⟨ainsert m.data key ⟨tag, GoVal.str s⟩,
                 if 0 < exp then ainsert m.expires key exp else m.expires⟩ r3
        else
          if 0 < exp ∧ exp < now then restoreLoop now fuel m r2
          else
            restoreLoop now fuel
              ⟨ainsert m.data key ⟨tag, GoVal.interfaceNil⟩,
               if 0 < exp then ainsert m.expires key exp else m.expires⟩ r2

/-- `MapStorage.Restore`: the record loop with ample fuel (every
iteration consumes at least 13 bytes of input). -/
def Restore (now : Int) (m : MapStorage) (bs : List Nat) : Option MapStorage :=
  restoreLoop now (bs.length + 1) m bs

/-- Reference fold describing what restoring a snapshot of `data` and
`expires` adds to an accumulator store: each record is re-inserted with
its deadline (a missing deadline is serialized and re-read as 0),
except that a record whose positive deadline is before `now` is
dropped. Used to state the round-trip law. -/
def restoreAccum (now : Int) (expires : List (GoStr × Int)) :
    List (GoStr × Entity) → MapStorage → MapStorage
  | [], acc => acc
  | (k, e) :: rest, acc =>
    let exp := (alookup expires k).getD 0
    if 0 < exp ∧ exp < now then restoreAccum now expires rest acc
    else
      restoreAccum now expires rest
        ⟨ainsert acc.data k e,
         if 0 < exp then ainsert acc.expires k exp else acc.expires⟩

end storage

namespace server

open storage resp

/-- The `get` handler: arity check, then `storage.Get`, translating a
wrong-type error, absence, and presence into RESP replies. -/
def get (now : Int) (m : MapStorage) (args : List GoStr) :
    resp.Value × MapStorage :=
  if args.length ≠ 1 then (MakeErrorWrongNumberOfArguments "GET", m)
  else
    let r := storage.Get now m (args.getD 0 [])
    match r.1 with
    | (_, _, some GoError.wrongType) =>
        (MakeError (gs "WRONGTYPE Get support only String type"), r.2)
    | (_, false, none) => (MakeNilBulkString, r.2)
    | (v, true, none) => (MakeBulkString v, r.2)

/-- The option-parsing loop of the `set` handler, processing the tokens
after key and value left to right. Mirrors the Go loop including the
early return in the EXAT/PXAT branch when the absolute timestamp is in
the past: that branch calls `storage.Set` with a 1-nanosecond TTL,
ignores its result, skips all remaining options and replies `+OK`. -/
def setLoop (now : Int) (m : MapStorage) (key value : GoStr) :
    List GoStr → SetOptions → Bool → resp.Value × MapStorage
  | [], options, _ =>
      let r := storage.Set now m key value options
      (if r.1 then MakeSimpleString (gs "OK") else MakeNilBulkString, r.2)
  | a :: rest, options, hasTTL =>
      let arg := goToUpper a
      if arg = gs "NX" then
        if options.XX then (MakeError (gs "NX cannot use with XX"), m)
        else setLoop now m key value rest { options with NX := true } hasTTL
      else if arg = gs "XX" then
        if options.NX then (MakeError (gs "XX cannot use with NX"), m)
        else setLoop now m key value rest { options with XX := true } hasTTL
      else if arg = gs "KEEPTTL" then
        if hasTTL then (MakeError (gs "TTL already specified"), m)
        else setLoop now m key value rest { options with KeepTTL := true } true
      else if arg = gs "EX" ∨ arg = gs "PX" ∨ arg = gs "EXAT" ∨ arg = gs "PXAT" then
        if hasTTL then (MakeError (gs "TTL already specified"), m)
        else
          match rest with
          | [] => (MakeError (gs "syntax error"), m)
          | tstr :: rest2 =>
            match goParseInt64 tstr with
            | none => (MakeError (gs "value TTL is not integer or out of range"), m)
            | some v =>
              let ttlDuration : Int :=
                if arg = gs "EX" then wrap64 (v * 1000000000)
                else if arg = gs "PX" then wrap64 (v * 1000000)
                else if arg = gs "EXAT" then sat64 (v * 1000000000 - now)
                else sat64 (v * 1000000 - now)
              if ttlDuration ≤ 0 ∧ (arg = gs "EXAT" ∨ arg = gs "PXAT") then
                let r := storage.Set now m key value { options with TTL := 1 }
                (MakeSimpleString (gs "OK"), r.2)
              else
                setLoop now m key value rest2 { options with TTL := ttlDuration } true
      else (MakeError (gs "syntax error with command: " ++ arg), m)

/-- The `set` handler: arity check, then the option loop starting from
empty options. -/
def set (now : Int) (m : MapStorage) (args : List GoStr) :
    resp.Value × MapStorage :=
  match args with
  | key :: value :: opts => setLoop now m key value opts {} false
  | _ => (MakeErrorWrongNumberOfArguments "SET", m)

/-- The `del` handler: deletes every argument key, counting the ones
that existed. -/
def del (m : MapStorage) (args : List GoStr) : resp.Value × MapStorage :=
  if args.length < 1 then (MakeErrorWrongNumberOfArguments "DEL", m)
  else
    let r := args.foldl
      (fun acc key =>
        let d := storage.Delete acc.2 key
        (acc.1 + (if d.1 then (1 : Int) else 0), d.2))
      ((0 : Int), m)
    (MakeInteger r.1, r.2)

/-- The `ttl` handler: negative status codes pass through; an active
deadline is reported in whole seconds (`int64(duration.Seconds())`,
truncation of a positive value). -/
def ttl (now : Int) (m : MapStorage) (args : List GoStr) :
    resp.Value × MapStorage :=
  if args.length ≠ 1 then (MakeErrorWrongNumberOfArguments "TTL", m)
  else
    let r := storage.Expiry now m (args.getD 0 [])
    if r.1.2 < 0 then (MakeInteger r.1.2, r.2)
    else (MakeInteger ((r.1.1.toNat / 1000000000 : Nat) : Int), r.2)

/-- The `pttl` handler: as `ttl` but in whole milliseconds. -/
def pttl (now : Int) (m : MapStorage) (args : List GoStr) :
    resp.Value × MapStorage :=
  if args.length ≠ 1 then (MakeErrorWrongNumberOfArguments "PTTL", m)
  else
    let r := storage.Expiry now m (args.getD 0 [])
    if r.1.2 < 0 then (MakeInteger r.1.2, r.2)
    else (MakeInteger ((r.1.1.toNat / 1000000 : Nat) : Int), r.2)

/-- The `persist` handler. -/
def persist (m : MapStorage) (args : List GoStr) : resp.Value × MapStorage :=
  if args.length ≠ 1 then (MakeErrorWrongNumberOfArguments "PERSIST", m)
  else
    let r := storage.Persist m (args.getD 0 [])
    (MakeInteger r.1, r.2)

/-- The `ping` handler. -/
def ping (args : List GoStr) : resp.Value :=
  if args.length > 1 then MakeErrorWrongNumberOfArguments "PING"
  else
    match args with
    | [a] => MakeBulkString a
    | _ => MakeSimpleString (gs "PONG")

/-- One row of the command introspection registry. -/
structure commandMetadata where
  name : String
  arity : Int
  flags : List String
  firstKey : Int
  lastKey : Int
  step : Int

/-- `getCommandRegistry`, verbatim. -/
def getCommandRegistry : List commandMetadata :=
  [⟨"ping", -1, ["fast", "stale"], 0, 0, 0⟩,
   ⟨"get", 2, ["readonly", "fast"], 1, 1, 1⟩,
   ⟨"set", -3, ["write", "denyoom"], 1, 1, 1⟩,
   ⟨"del", -2, ["write"], 1, -1, 1⟩,
   ⟨"ttl", 2, ["readonly", "fast"], 1, 1, 1⟩,
   ⟨"pttl", 2, ["readonly", "fast"], 1, 1, 1⟩,
   ⟨"persist", 2, ["write", "fast"], 1, 1, 1⟩,
   ⟨"command", -1, ["random", "loading", "stale"], 0, 0, 0⟩]

/-- `makeFlagsArray`. -/
def makeFlagsArray (flags : List String) : resp.Value :=
  MakeArray (flags.map fun f => MakeSimpleString (gs f))

/-- The `COMMAND` handler (`cmd`). -/
def cmd (args : List GoStr) : resp.Value :=
  match args with
  | a0 :: _ =>
    let subCmd := goToUpper a0
    if subCmd = gs "COUNT" then MakeInteger (getCommandRegistry.length : Int)
    else if subCmd = gs "DOCS" then MakeSimpleString (gs "OK")
    else MakeErrorWrongNumberOfArguments "COMMAND"
  | [] =>
    MakeArray (getCommandRegistry.map fun info =>
      MakeArray [MakeBulkString (gs info.name), MakeInteger info.arity,
                 makeFlagsArray info.flags, MakeInteger info.firstKey,
                 MakeInteger info.lastKey, MakeInteger info.step])

/-- `isWriteCommand`: the static write classifier used by the engine. -/
def isWriteCommand (name : String) : Bool :=
  name == "SET" || name == "DEL" || name == "PERSIST"

/-- The command-table lookup and handler run of `Engine.Execute`, for
an engine whose RDB subsystem is disabled: `none` when the name is not
a registered (uppercase) command, otherwise the handler result. -/
def dispatch (now : Int) (name : String) (args : List GoStr) (m : MapStorage) :
    Option (resp.Value × MapStorage) :=
  match name with
  | "GET" => some (get now m args)
  | "SET" => some (set now m args)
  | "DEL" => some (del m args)
  | "PING" => some (ping args, m)
  | "COMMAND" => some (cmd args, m)
  | "TTL" => some (ttl now m args)
  | "PTTL" => some (pttl now m args)
  | "PERSIST" => some (persist m args)
  | "SAVE" => some (MakeError (gs "RDB disabled"), m)
  | "BGSAVE" => some (MakeError (gs "RDB disabled"), m)
  | _ => none

/-- `Engine.Execute`: runs the dispatched handler and reports whether
the re-serialized command would be handed to the AOL. The append
condition is exactly the one in the source: the AOL is attached, the
reply is not a RESP error, and `isWriteCommand` accepts the command
name. -/
def Execute (now : Int) (aofEnabled : Bool) (name : String) (args : List GoStr)
    (m : MapStorage) : resp.Value × MapStorage × Bool :=
  match dispatch now name args m with
  | none => (MakeError (gs ("wrong command: " ++ name)), m, false)
  | some (res, m2) =>
      (res, m2, aofEnabled && (res.typ != TypeError) && isWriteCommand name)

end server

namespace persistence

/-- `persistence.fsyncStrategy`. -/
inductive fsyncStrategy where
  | fsyncAlways
  | fsyncEverySec
  | fsyncNo
  deriving DecidableEq, Repr

/-- `persistence.parseStrategy`: unknown strings default to every-second
syncing. -/
def parseStrategy (s : GoStr) : fsyncStrategy :=
  if s = gs "always" then .fsyncAlways
  else if s = gs "no" then .fsyncNo
  else .fsyncEverySec

/-- The payloads that the `AOF.listen` background writer hands to the
buffered file writer, given the payloads delivered on the command
channel before shutdown. Under `fsyncNo` the goroutine stops its ticker
and returns before ever entering the receive loop, so nothing is
written; under the other strategies the receive loop writes every
payload it takes from the channel (the model assumes the favorable
schedule in which all queued payloads are delivered before the stop
signal is selected). -/
def listenWrites : fsyncStrategy → List (List Nat) → List (List Nat)
  | .fsyncNo, _ => []
  | .fsyncAlways, queued => queued
  | .fsyncEverySec, queued => queued

end persistence

namespace server

/-- What the GC loop does after completing a sweep inside the tick
case. -/
inductive GCNext where
  | waitNextTick
  | sweepImmediately
  deriving DecidableEq, Repr

/-- Control flow of `Engine.startGCLoop` after one
`DeleteExpired` sweep returning mean ratio `stats`. The source reads
`if stats < threshold, break`, but in Go a break statement inside a
select case terminates the select, not the surrounding for loop, so
both branches of the comparison fall through to the next iteration of
the for loop, which blocks on the select again until the next ticker
delivery or the stop signal. -/
def gcAfterSweep (stats threshold : ℚ) : GCNext :=
  if stats < threshold then GCNext.waitNextTick
  else GCNext.waitNextTick

end server

namespace config

/-- `config.ServerConfig`. -/
structure ServerConfig where
  host : String
  port : String
  deriving DecidableEq, Repr

/-- `config.StorageConfig`. -/
structure StorageConfig where
  shards : Nat
  deriving DecidableEq, Repr

/-- `config.GCConfig`; the interval is a `time.Duration` in
nanoseconds. -/
structure GCConfig where
  enabled : Bool
  interval : Int
  samplesPerCheck : Int
  matchThreshold : ℚ
  deriving DecidableEq, Repr

/-- `config.LogConfig`. -/
structure LogConfig where
  level : String
  format : String
  deriving DecidableEq, Repr

/-- `config.AOFConfig`. -/
structure AOFConfig where
  enabled : Bool
  filename : String
  fsync : String
  deriving DecidableEq, Repr

/-- `config.RDBConfig`; the interval is a plain string, parsed later by
the engine. -/
structure RDBConfig where
  enabled : Bool
  filename : String
  interval : String
  deriving DecidableEq, Repr

/-- `config.PersistenceConfig`. -/
structure PersistenceConfig where
  aof : AOFConfig
  rdb : RDBConfig
  deriving DecidableEq, Repr

/-- `config.Config`. -/
structure Config where
  server : ServerConfig
  storage : StorageConfig
  gc : GCConfig
  log : LogConfig
  persistence : PersistenceConfig
  deriving DecidableEq, Repr

/-- A configuration value registered with the viper key-value registry. -/
inductive VVal where
  | vstr (s : String)
  | vint (n : Int)
  | vbool (b : Bool)
  | vrat (q : ℚ)
  deriving DecidableEq, Repr

/-- The key-value pairs registered by `setDefaults` in
`internal/config/config.go`, verbatim. -/
def setDefaults : List (String × VVal) :=
  [("server.host", .vstr "0.0.0.0"),
   ("server.port", .vstr "6380"),
   ("storage.shards", .vint 32),
   ("gc.enabled", .vbool true),
   ("gc.interval", .vstr "100ms"),
   ("gc.sample_per_shard", .vint 20),
   ("gc.expand_threshold", .vrat (1 / 4)),
   ("log.level", .vstr "debug"),
   ("log.format", .vstr "json"),
   ("persistence.aof.enabled", .vbool false),
   ("persistence.aof.filename", .vstr "appendonly.aof"),
   ("persistence.aof.fsync", .vstr "everysec"),
   ("persistence.rdb.enabled", .vbool true),
   ("persistence.rdb.filename", .vstr "dump.rdb"),
   ("persistence.rdb.interval", .vstr "5s")]

/-- Viper string read with the Go zero value as fallback. -/
def vStr (d : List (String × VVal)) (key : String) : String :=
  match alookup d key with
  | some (.vstr s) => s
  | _ => ""

/-- Viper bool read with the Go zero value as fallback. -/
def vBool (d : List (String × VVal)) (key : String) : Bool :=
  match alookup d key with
  | some (.vbool b) => b
  | _ => false

/-- Viper int read with the Go zero value as fallback. -/
def vInt (d : List (String × VVal)) (key : String) : Int :=
  match alookup d key with
  | some (.vint n) => n
  | _ => 0

/-- Viper float read with the Go zero value as fallback. -/
def vRat (d : List (String × VVal)) (key : String) : ℚ :=
  match alookup d key with
  | some (.vrat q) => q
  | _ => 0

/-- Split a leading digit run off a byte string, returning its value
and the remainder. -/
def splitDigits : GoStr → Nat → Nat × GoStr
  | [], acc => (acc, [])
  | b :: r, acc =>
      if 48 ≤ b ∧ b ≤ 57 then splitDigits r (acc * 10 + (b - 48))
      else (acc, b :: r)

/-- Nanoseconds per duration unit accepted by `time.ParseDuration`. -/
def durUnitNs (u : GoStr) : Option Int :=
  if u = gs "ns" then some 1
  else if u = gs "us" then some 1000
  else if u = gs "ms" then some 1000000
  else if u = gs "s" then some 1000000000
  else if u = gs "m" then some 60000000000
  else if u = gs "h" then some 3600000000000
  else none

/-- The restriction of `time.ParseDuration` to one unsigned
number-unit component, which covers every duration literal appearing in
the configuration defaults. -/
def parseSimpleDuration (s : String) : Option Int :=
  let p := splitDigits (gs s) 0
  (durUnitNs p.2).map fun u => (p.1 : Int) * u

/-- Viper `time.Duration` read: the string value decoded through the
duration hook, with the Go zero value as fallback. -/
def vDuration (d : List (String × VVal)) (key : String) : Int :=
  (parseSimpleDuration (vStr d key)).getD 0

/-- The configuration produced by `config.Load` when neither a
configuration file nor any environment variable provides a value: every
struct field is bound to its mapstructure key (the dotted path built
from the struct tags) and falls back to the registered default, or to
the Go zero value when no default is registered under that exact key. -/
def loadDefaults : Config :=
  { server := { host := vStr setDefaults "server.host",
                port := vStr setDefaults "server.port" },
    storage := { shards := (vInt setDefaults "storage.shards").toNat },
    gc := { enabled := vBool setDefaults "gc.enabled",
            interval := vDuration setDefaults "gc.interval",
            samplesPerCheck := vInt setDefaults "gc.samples_per_check",
            matchThreshold := vRat setDefaults "gc.match_threshold" },
    log := { level := vStr setDefaults "log.level",
             format := vStr setDefaults "log.format" },
    persistence :=
      { aof := { enabled := vBool setDefaults "persistence.aof.enabled",
                 filename := vStr setDefaults "persistence.aof.filename",
                 fsync := vStr setDefaults "persistence.aof.fsync" },
        rdb := { enabled := vBool setDefaults "persistence.rdb.enabled",
                 filename := vStr setDefaults "persistence.rdb.filename",
                 interval := vStr setDefaults "persistence.rdb.interval" } } }

end config

namespace resp

/-- Decoder outcomes other than a parsed value. The model distinguishes
a Go runtime panic from a returned error: `panicMakeSlice` marks the
`make` call with a negative length or capacity that crashes the
goroutine. `outOfFuel` is an artifact of the fuel-indexed recursion and
is never produced with the fuel supplied by `decoderRead` on the
inputs evaluated below. -/
inductive DErr where
  | eof
  | invalidLineEnding
  | unexpectedType
  | panicMakeSlice
  | outOfFuel
  deriving DecidableEq, Repr

/-- `bufio.Reader.ReadSlice` up to and including the first newline
byte; `none` when the input ends first (`io.EOF`). The model reader
has an unbounded buffer. -/
def readSliceNewline : List Nat → Option (List Nat × List Nat)
  | [] => none
  | b :: r =>
    if b = 10 then some ([b], r)
    else
      match readSliceNewline r with
      | some (line, rest) => some (b :: line, rest)
      | none => none

/-- `Decoder.readLine`: a full line must end in the two bytes CR LF;
everything else, including running out of input, is the
invalid-line-ending error. Returns the line without its terminator. -/
def dReadLine (bs : List Nat) : Except DErr (GoStr × List Nat) :=
  match readSliceNewline bs with
  | none => .error .invalidLineEnding
  | some (line, rest) =>
    if line.length < 2 ∨ line.getD (line.length - 2) 0 ≠ 13 then
      .error .invalidLineEnding
    else .ok (line.take (line.length - 2), rest)

/-- `Decoder.readInteger`: parse the line with `strconv.ParseInt`,
turning a syntax error into the invalid-line-ending error and ignoring
a range error (the clamped value is used). -/
def dReadInteger (bs : List Nat) : Except DErr (Int × List Nat) :=
  match dReadLine bs with
  | .error e => .error e
  | .ok (line, rest) =>
    match goParseInt64Clamped line with
    | none => .error .invalidLineEnding
    | some i => .ok (i, rest)

/-- `Decoder.readBulkString`: `-1` is the null bulk string (`none`);
any other negative length reaches `make` with a negative length and
panics; otherwise the body is read in full (a partial body is the
invalid-line-ending error, a completely missing body is a raw
`io.EOF`) and the two bytes after it must be CR LF. -/
def dReadBulkString (bs : List Nat) : Except DErr (Option GoStr × List Nat) :=
  match dReadInteger bs with
  | .error e => .error e
  | .ok (size, r) =>
    if size = -1 then .ok (none, r)
    else if size < 0 then .error .panicMakeSlice
    else
      if r.length = 0 ∧ 0 < size.toNat then .error .eof
      else if r.length < size.toNat then .error .invalidLineEnding
      else
        let r2 := r.drop size.toNat
        if r2.length < 2 ∨ r2.getD 0 0 ≠ 13 ∨ r2.getD 1 0 ≠ 10 then
          .error .invalidLineEnding
        else .ok (some (r.take size.toNat), r2.drop 2)

mutual

/-- `Decoder.Read`, fuel-indexed: reads the type byte and dispatches.
An empty input is a raw `io.EOF`; an unknown type byte is the
unexpected-type error. -/
def dRead : Nat → List Nat → Except DErr (Value × List Nat)
  | 0, _ => .error .outOfFuel
  | fuel + 1, bs =>
    match bs with
    | [] => .error .eof
    | t :: rest =>
      if t = TypeSimpleString ∨ t = TypeError then
        match dReadLine rest with
        | .error e => .error e
        | .ok (line, r) => .ok (.mk t line 0 [] false, r)
      else if t = TypeArray then
        match dReadArray fuel rest with
        | .error e => .error e
        | .ok (none, r) => .ok (.mk t [] 0 [] true, r)
        | .ok (some arr, r) => .ok (.mk t [] 0 arr false, r)
      else if t = TypeInteger then
        match dReadInteger rest with
        | .error e => .error e
        | .ok (n, r) => .ok (.mk t [] n [] false, r)
      else if t = TypeBulkString then
        match dReadBulkString rest with
        | .error e => .error e
        | .ok (none, r) => .ok (.mk t [] 0 [] true, r)
        | .ok (some s, r) => .ok (.mk t s 0 [] false, r)
      else .error .unexpectedType

/-- `Decoder.readArray`, fuel-indexed: `-1` is the null array (`none`),
`0` the empty non-null array (`some nil`); any other negative length
reaches `make` with a negative capacity and panics; otherwise the
elements are read recursively, with end-of-input errors remapped to the
invalid-line-ending error. -/
def dReadArray : Nat → List Nat → Except DErr (Option (List Value) × List Nat)
  | 0, _ => .error .outOfFuel
  | fuel + 1, bs =>
    match dReadInteger bs with
    | .error .eof => .error .invalidLineEnding
    | .error e => .error e
    | .ok (size, r) =>
      if size = -1 then .ok (none, r)
      else if size = 0 then .ok (some [], r)
      else if size < 0 then .error .panicMakeSlice
      else
        match dReadElems fuel size.toNat r with
        | .error e => .error e
        | .ok (vs, r2) => .ok (some vs, r2)

/-- The element loop of `Decoder.readArray`. -/
def dReadElems : Nat → Nat → List Nat → Except DErr (List Value × List Nat)
  | 0, _, _ => .error .outOfFuel
  | _ + 1, 0, bs => .ok ([], bs)
  | fuel + 1, n + 1, bs =>
    match dRead fuel bs with
    | .error .eof => .error .invalidLineEnding
    | .error e => .error e
    | .ok (v, r) =>
      match dReadElems fuel n r with
      | .error e => .error e
      | .ok (vs, r2) => .ok (v :: vs, r2)

end

/-- `Decoder.Read` on a complete input stream, with fuel ample for the
stream length (each parsing step consumes input). -/
def decoderRead (bs : List Nat) : Except DErr (Value × List Nat) :=
  dRead (2 * bs.length + 8) bs

end resp

/-! ## Helper lemmas -/

@[simp]
theorem alookup_ainsert_self {α β : Type} [DecidableEq α]
    (l : List (α × β)) (k : α) (v : β) : alookup (ainsert l k v) k = some v := by
  induction l with
  | nil => simp [ainsert, alookup]
  | cons p r ih =>
    obtain ⟨k0, v0⟩ := p
    by_cases h : k0 = k
    · simp [ainsert, alookup, h]
    · simp [ainsert, alookup, h, ih]

theorem alookup_ainsert_of_ne {α β : Type} [DecidableEq α]
    (l : List (α × β)) (k k2 : α) (v : β) (h : k2 ≠ k) :
    alookup (ainsert l k v) k2 = alookup l k2 := by
  induction l with
  | nil => simp [ainsert, alookup, Ne.symm h]
  | cons p r ih =>
    obtain ⟨k0, v0⟩ := p
    by_cases h0 : k0 = k
    · subst h0
      simp [ainsert, alookup, Ne.symm h]
    · simp [ainsert, alookup, h0, ih]

@[simp]
theorem alookup_aremove_self {α β : Type} [DecidableEq α]
    (l : List (α × β)) (k : α) : alookup (aremove l k) k = none := by
  induction l with
  | nil => simp [aremove, alookup]
  | cons p r ih =>
    obtain ⟨k0, v0⟩ := p
    by_cases h : k0 = k <;> simp [aremove, alookup, h, ih]

theorem alookup_aremove_of_ne {α β : Type} [DecidableEq α]
    (l : List (α × β)) (k k2 : α) (h : k2 ≠ k) :
    alookup (aremove l k) k2 = alookup l k2 := by
  induction l with
  | nil => simp [aremove]
  | cons p r ih =>
    obtain ⟨k0, v0⟩ := p
    by_cases h0 : k0 = k
    · subst h0
      simp [aremove, alookup, Ne.symm h, ih]
    · simp [aremove, alookup, h0, ih]

theorem alookup_eq_none_of_not_mem {α β : Type} [DecidableEq α]
    (l : List (α × β)) (k : α) (h : k ∉ l.map Prod.fst) : alookup l k = none := by
  induction l with
  | nil => simp [alookup]
  | cons p r ih =>
    obtain ⟨k0, v0⟩ := p
    simp only [List.map_cons, List.mem_cons] at h
    push_neg at h
    simp [alookup, Ne.symm h.1, ih h.2]

theorem alookup_isSome_of_mem {α β : Type} [DecidableEq α]
    (l : List (α × β)) (k : α) (h : k ∈ l.map Prod.fst) :
    ∃ v, alookup l k = some v := by
  induction l with
  | nil => simp at h
  | cons p r ih =>
    obtain ⟨k0, v0⟩ := p
    by_cases h0 : k0 = k
    · exact ⟨v0, by simp [alookup, h0]⟩
    · simp only [List.map_cons, List.mem_cons] at h
      rcases h with h | h
      · exact absurd h.symm h0
      · obtain ⟨v, hv⟩ := ih h
        exact ⟨v, by simp [alookup, h0, hv]⟩

theorem leNat_putU32 {n : Nat} (h : n < 2 ^ 32) : leNat (putU32 n) = n := by
  norm_num [putU32, leNat]
  omega

theorem leNat_putU64 {n : Nat} (h : n < 2 ^ 64) : leNat (putU64 n) = n := by
  norm_num [putU64, leNat]
  omega

theorem u64ToI64_i64ToU64 {x : Int} (h0 : 0 ≤ x) (h1 : x < 2 ^ 63) :
    u64ToI64 (i64ToU64 x) = x := by
  norm_num [u64ToI64, i64ToU64]
  omega

/-! ## Claim theorems -/

/-- C1: the claim states that whenever an NX or XX condition blocks a
SET, the reply is the null bulk string and the store is unchanged, for
every option ordering including EXAT/PXAT with a past timestamp. The
code contradicts this: with the key `k` present (value `old`, no
deadline) at `now = 1000` ns, the command `SET k new NX EXAT 0` parses
NX, then hits the past-timestamp branch, whose early return calls
`Set` with a 1 ns TTL, ignores that NX blocked the write (the store is
unchanged) and replies `+OK` instead of `$-1`. -/
theorem set_nx_exat_past_replies_ok :
    server.set 1000 ⟨[(gs "k", ⟨storage.TypeString, storage.GoVal.str (gs "old")⟩)], []⟩
        [gs "k", gs "new", gs "NX", gs "EXAT", gs "0"]
      = (resp.MakeSimpleString (gs "OK"),
         ⟨[(gs "k", ⟨storage.TypeString, storage.GoVal.str (gs "old")⟩)], []⟩) := rfl

/-- C2 counterexample: the claim quantifies over every key whose
deadline is past, but a Hash-tagged entry (constructible through
`Restore`) with a past deadline (5 < now = 10) makes `Get` return the
WRONGTYPE error without reporting absence and without deleting either
table entry, so the claim as stated is false. -/
theorem get_expired_wrongtype_cex :
    storage.Get 10 ⟨[(gs "k", ⟨storage.TypeHash, storage.GoVal.interfaceNil⟩)],
        [(gs "k", 5)]⟩ (gs "k")
      = (([], false, some storage.GoError.wrongType),
         ⟨[(gs "k", ⟨storage.TypeHash, storage.GoVal.interfaceNil⟩)], [(gs "k", 5)]⟩)
    ∧ (5 : Int) < 10 := ⟨rfl, by norm_num⟩

/-- C3 counterexample: the claim requires every record whose deadline
is in the past at restore time to be dropped. A store whose single key
has the deadline 0 (an instant in the past at `now = 5`) is serialized
with the deadline field 0, which the loader reads back as "no
expiration": the key is materialized without its deadline rather than
dropped, so the restored state is neither the original store nor the
original store minus expired keys. -/
theorem pit_roundtrip_zero_deadline_cex :
    (storage.Snapshot ⟨[(gs "k", ⟨storage.TypeString, storage.GoVal.str (gs "v")⟩)],
          [(gs "k", 0)]⟩).bind (storage.Restore 5 storage.NewMapStorage)
      = some ⟨[(gs "k", ⟨storage.TypeString, storage.GoVal.str (gs "v")⟩)], []⟩
    ∧ some (⟨[(gs "k", ⟨storage.TypeString, storage.GoVal.str (gs "v")⟩)], []⟩ : storage.MapStorage)
        ≠ some (⟨[], []⟩ : storage.MapStorage)
    ∧ some (⟨[(gs "k", ⟨storage.TypeString, storage.GoVal.str (gs "v")⟩)], []⟩ : storage.MapStorage)
        ≠ some (⟨[(gs "k", ⟨storage.TypeString, storage.GoVal.str (gs "v")⟩)],
            [(gs "k", 0)]⟩ : storage.MapStorage)
    ∧ (0 : Int) < 5 := ⟨rfl, by decide, by decide, by norm_num⟩

/-- C4 counterexample: the claim states that a PERSIST returning 0 is
never appended to the AOL. Executing PERSIST on a key absent from an
empty store returns the integer reply 0 and leaves the store unchanged,
yet the engine's append condition (reply not an error, name accepted by
`isWriteCommand`) evaluates to true, so the command is enqueued. -/
theorem engine_appends_noop_persist_cex :
    server.Execute 0 true "PERSIST" [gs "k"] storage.NewMapStorage
      = (resp.MakeInteger 0, storage.NewMapStorage, true) := rfl

/-- C5: the claim states that under the `no` durability strategy the
AOL background writer still runs, writing every record taken from the
channel into the user-space buffer and draining the channel on close.
The code contradicts this: `listen` returns before entering its
receive loop when the strategy is `fsyncNo`, so a queued payload is
never written (and `Close` then merely waits for the already-exited
goroutine and closes the file, losing whatever sits in the channel). -/
theorem aof_no_strategy_writer_exits :
    persistence.parseStrategy (gs "no") = persistence.fsyncStrategy.fsyncNo
    ∧ persistence.listenWrites persistence.fsyncStrategy.fsyncNo [gs "SET"] = []
    ∧ ∀ queued, persistence.listenWrites persistence.fsyncStrategy.fsyncNo queued = [] :=
  ⟨rfl, rfl, fun _ => rfl⟩

/-- C6: the claim states that a PIT stream containing a record with a
reserved tag (List/Set/ZSet, or Hash on this loader) makes the restore
fail with an error and materialize nothing. The code contradicts this:
restoring a single record with the List tag (2) succeeds and
materializes the key with a nil value; no value bytes are consumed for
such a record, so any following bytes would be misparsed as the next
header. -/
theorem restore_reserved_tag_materializes :
    storage.Restore 100 storage.NewMapStorage
        (putU32 1 ++ putU64 0 ++ [storage.TypeList] ++ gs "k")
      = some ⟨[(gs "k", ⟨storage.TypeList, storage.GoVal.interfaceNil⟩)], []⟩ := rfl

/-- C7: the claim states that a sweep ratio at or above the threshold
makes the reaper sweep again immediately instead of waiting for the
next tick. In the code, the conditional break inside the select case
terminates only the select, so the loop waits for the next tick in
both branches: even a ratio of 1 with threshold 1/4 yields a wait. -/
theorem gc_loop_always_waits :
    (∀ stats threshold : ℚ, server.gcAfterSweep stats threshold = server.GCNext.waitNextTick)
    ∧ server.gcAfterSweep 1 (1 / 4) = server.GCNext.waitNextTick :=
  ⟨fun _ _ => by simp [server.gcAfterSweep], by simp [server.gcAfterSweep]⟩

/-- C8: the claim states that the decoder never crashes and returns an
error on every negative length other than -1. The null-array and
empty-array cases behave as claimed, and missing CR LF terminators
(after a simple-string line, mid-bulk, and after a bulk body) yield the
invalid-line-ending error; but a bulk-string length of -2 and an array
length of -2 both reach a Go `make` call with a negative size, which
panics instead of returning an error. -/
theorem decoder_negative_length_panics :
    resp.decoderRead (gs "*-1\r\n") = .ok (.mk resp.TypeArray [] 0 [] true, [])
    ∧ resp.decoderRead (gs "*0\r\n") = .ok (.mk resp.TypeArray [] 0 [] false, [])
    ∧ resp.decoderRead (gs "+OK") = .error .invalidLineEnding
    ∧ resp.decoderRead (gs "$3\r\nab") = .error .invalidLineEnding
    ∧ resp.decoderRead (gs "$2\r\nab") = .error .invalidLineEnding
    ∧ resp.decoderRead (gs "$-2\r\n") = .error .panicMakeSlice
    ∧ resp.decoderRead (gs "*-2\r\n") = .error .panicMakeSlice :=
  ⟨rfl, rfl, rfl, rfl, rfl, rfl, rfl⟩

/-- C9: the claim states that with no file and no environment the
loader yields rdb.enabled = false, rdb.interval = 60s and
gc.samples_per_check = 20 bound to the key the struct reads. The code
contradicts all three: the registered defaults are
persistence.rdb.enabled = true and persistence.rdb.interval = "5s",
and the sample default is registered under gc.sample_per_shard (and
the threshold under gc.expand_threshold) while the struct reads
gc.samples_per_check (and gc.match_threshold), so those fields

unmarshal to the Go zero values 0. -/
theorem config_defaults_mismatch :
    config.loadDefaults.gc.samplesPerCheck = 0
    ∧ config.loadDefaults.gc.matchThreshold = 0
    ∧ config.loadDefaults.persistence.rdb.enabled = true
    ∧ config.loadDefaults.persistence.rdb.interval = "5s"
    ∧ alookup config.setDefaults "gc.samples_per_check" = none
    ∧ alookup config.setDefaults "gc.sample_per_shard" = some (.vint 20) :=
  ⟨rfl, rfl, rfl, rfl, rfl, rfl⟩

/-- C2 amended: for a String-typed entry whose deadline is past, `Get`
reports the key absent and deletes both table entries; `Expiry`
reports NotFound and deletes both entries for an entry of any type
(its status codes never depend on the type tag). -/
theorem lazy_expiration_reads (now : Int) (m : storage.MapStorage) (k : GoStr)
    (e : storage.Entity) (exp : Int)
    (hd : alookup m.data k = some e)
    (he : alookup m.expires k = some exp)
    (hpast : now > exp) :
    (e.typ = storage.TypeString →
      storage.Get now m k =
        (([], false, none), ⟨aremove m.data k, aremove m.expires k⟩))
    ∧ storage.Expiry now m k =
        ((0, storage.ExpNotFound), ⟨aremove m.data k, aremove m.expires k⟩) := by
  constructor
  · intro ht
    simp [storage.Get, hd, he, ht, hpast, storage.TypeString]
  · simp [storage.Expiry, hd, he, hpast]

/-- Witness for the amended C2 at a concrete expired String key. -/
theorem lazy_expiration_reads_witness :
    storage.Get 10 ⟨[(gs "k", ⟨storage.TypeString, storage.GoVal.str (gs "v")⟩)],
        [(gs "k", 5)]⟩ (gs "k")
      = (([], false, none), ⟨[], []⟩)
    ∧ storage.Expiry 10 ⟨[(gs "k", ⟨storage.TypeString, storage.GoVal.str (gs "v")⟩)],
        [(gs "k", 5)]⟩ (gs "k")
      = ((0, storage.ExpNotFound), ⟨[], []⟩) := by
  have h := lazy_expiration_reads 10
    ⟨[(gs "k", ⟨storage.TypeString, storage.GoVal.str (gs "v")⟩)], [(gs "k", 5)]⟩
    (gs "k") ⟨storage.TypeString, storage.GoVal.str (gs "v")⟩ 5 rfl rfl (by norm_num)
  exact ⟨h.1 rfl, h.2⟩

/-- C10: `Persist` never inspects the deadline: on a String key present
in both tables whose deadline is already past, it removes the deadline,
returns 1, and the previously expired value is visible to a subsequent
`Get` (instead of the key being treated as absent with `Persist`
returning 0). -/
theorem persist_ignores_deadline (now : Int) (m : storage.MapStorage) (k v : GoStr)
    (exp : Int)
    (hd : alookup m.data k = some ⟨storage.TypeString, storage.GoVal.str v⟩)
    (he : alookup m.expires k = some exp)
    (hpast : now > exp) :
    storage.Persist m k = (1, ⟨m.data, aremove m.expires k⟩)
    ∧ storage.Get now ⟨m.data, aremove m.expires k⟩ k
        = ((v, true, none), ⟨m.data, aremove m.expires k⟩) := by
  constructor
  · simp [storage.Persist, hd, he]
  · simp [storage.Get, hd, storage.GoVal.goString, storage.TypeString]

/-- Witness for C10 at a concrete store whose single key expired at 5,
observed at 10. -/
theorem persist_ignores_deadline_witness :
    storage.Persist ⟨[(gs "k", ⟨storage.TypeString, storage.GoVal.str (gs "v")⟩)],
        [(gs "k", 5)]⟩ (gs "k")
      = (1, ⟨[(gs "k", ⟨storage.TypeString, storage.GoVal.str (gs "v")⟩)], []⟩)
    ∧ storage.Get 10 ⟨[(gs "k", ⟨storage.TypeString, storage.GoVal.str (gs "v")⟩)], []⟩
        (gs "k")
      = ((gs "v", true, none),
         ⟨[(gs "k", ⟨storage.TypeString, storage.GoVal.str (gs "v")⟩)], []⟩) := by
  have h := persist_ignores_deadline 10
    ⟨[(gs "k", ⟨storage.TypeString, storage.GoVal.str (gs "v")⟩)], [(gs "k", 5)]⟩
    (gs "k") (gs "v") 5 rfl rfl (by norm_num)
  exact ⟨h.1, h.2⟩

/-- C4 amended: the engine hands a command to the AOL exactly when the
reply is not a RESP error and the command name is one of the write
commands SET/DEL/PERSIST, regardless of whether the invocation mutated
state; in particular a SET blocked by NX (null-bulk reply, no
mutation), a DEL that removed nothing, and a PERSIST that returned 0
are all appended. -/
theorem engine_appends_by_name (now : Int) (m : storage.MapStorage)
    (k k2 v : GoStr) (e : storage.Entity)
    (hd : alookup m.data k = some e)
    (he : alookup m.expires k = none)
    (hk2 : alookup m.data k2 = none) :
    (∀ (aofE : Bool) (name : String) (args : List GoStr) (m0 : storage.MapStorage),
        (server.Execute now aofE name args m0).2.2
          = (aofE && ((server.Execute now aofE name args m0).1.typ != resp.TypeError)
             && server.isWriteCommand name))
    ∧ server.Execute now true "SET" [k, v, gs "NX"] m
        = (resp.MakeNilBulkString, m, true)
    ∧ server.Execute now true "DEL" [k2] m = (resp.MakeInteger 0, m, true)
    ∧ server.Execute now true "PERSIST" [k] m = (resp.MakeInteger 0, m, true) := by
  have hNX : goToUpper (gs "NX") = gs "NX" := rfl
  refine ⟨?_, ?_, ?_, ?_⟩
  · intro aofE name args m0
    unfold server.Execute
    cases hopt : server.dispatch now name args m0 with
    | none => simp [resp.MakeError, resp.Value.typ, resp.TypeError]
    | some p =>
      obtain ⟨res, m2⟩ := p
      simp
  · simp [server.Execute, server.dispatch, server.set, server.setLoop,
      storage.Set, hd, he, hNX, server.isWriteCommand, resp.MakeNilBulkString,
      resp.Value.typ, resp.TypeError, resp.TypeBulkString]
  · simp [server.Execute, server.dispatch, server.del, storage.Delete, hk2,
      server.isWriteCommand, resp.MakeInteger, resp.Value.typ, resp.TypeError,
      resp.TypeInteger]
  · simp [server.Execute, server.dispatch, server.persist, storage.Persist, hd, he,
      server.isWriteCommand, resp.MakeInteger, resp.Value.typ, resp.TypeError,
      resp.TypeInteger]

/-- Witness for the amended C4 at a concrete store: key `k` present
without a deadline, key `x` absent. -/
theorem engine_appends_by_name_witness :
    server.Execute 7 true "SET" [gs "k", gs "v", gs "NX"]
        ⟨[(gs "k", ⟨storage.TypeString, storage.GoVal.str (gs "old")⟩)], []⟩
      = (resp.MakeNilBulkString,
         ⟨[(gs "k", ⟨storage.TypeString, storage.GoVal.str (gs "old")⟩)], []⟩, true)
    ∧ server.Execute 7 true "DEL" [gs "x"]
        ⟨[(gs "k", ⟨storage.TypeString, storage.GoVal.str (gs "old")⟩)], []⟩
      = (resp.MakeInteger 0,
         ⟨[(gs "k", ⟨storage.TypeString, storage.GoVal.str (gs "old")⟩)], []⟩, true)
    ∧ server.Execute 7 true "PERSIST" [gs "k"]
        ⟨[(gs "k", ⟨storage.TypeString, storage.GoVal.str (gs "old")⟩)], []⟩
      = (resp.MakeInteger 0,
         ⟨[(gs "k", ⟨storage.TypeString, storage.GoVal.str (gs "old")⟩)], []⟩, true) := by
  have h := engine_appends_by_name 7
    ⟨[(gs "k", ⟨storage.TypeString, storage.GoVal.str (gs "old")⟩)], []⟩
    (gs "k") (gs "x") (gs "v") ⟨storage.TypeString, storage.GoVal.str (gs "old")⟩
    rfl rfl rfl
  exact ⟨h.2.1, h.2.2.1, h.2.2.2⟩

/-- A successful association-list lookup comes from a member pair. -/
theorem mem_of_alookup_eq_some {α β : Type} [DecidableEq α]
    {l : List (α × β)} {k : α} {v : β} (h : alookup l k = some v) : (k, v) ∈ l := by
  induction l with
  | nil => simp [alookup] at h
  | cons p r ih =>
    obtain ⟨k0, v0⟩ := p
    by_cases h0 : k0 = k
    · subst h0
      simp [alookup] at h
      subst h
      exact List.mem_cons_self _ _
    · simp only [alookup, h0, if_false] at h
      exact List.mem_cons_of_mem _ (ih h)

/-- The unsigned 64-bit image of any integer fits in 64 bits. -/
theorem i64ToU64_lt (x : Int) : i64ToU64 x < 2 ^ 64 := by
  norm_num [i64ToU64]
  omega

/-- One iteration of the restore loop on a well-formed String record:
the header, key and value parse back exactly, after which the loop
continues on the remaining bytes, dropping the record when its positive
deadline is before `now`. -/
theorem restoreLoop_record (now : Int) (fuel : Nat) (acc : storage.MapStorage)
    (k v rb : List Nat) (expv : Int)
    (hk : k.length < 2 ^ 32) (hv : v.length < 2 ^ 32)
    (he0 : 0 ≤ expv) (he1 : expv < 2 ^ 63) :
    storage.restoreLoop now (fuel + 1) acc
        (putU32 k.length ++ putU64 (i64ToU64 expv) ++ [storage.TypeString] ++ k ++
         storage.writeString v ++ rb)
      = (if 0 < expv ∧ expv < now then storage.restoreLoop now fuel acc rb
         else storage.restoreLoop now fuel
           ⟨ainsert acc.data k ⟨storage.TypeString, storage.GoVal.str v⟩,
            if 0 < expv then ainsert acc.expires k expv else acc.expires⟩ rb) := by
  have h4 : (putU32 k.length).length = 4 := by simp [putU32]
  have h8 : (putU64 (i64ToU64 expv)).length = 8 := by simp [putU64]
  have hA : (putU32 k.length ++ putU64 (i64ToU64 expv) ++ [storage.TypeString]).length = 13 := by
    simp [putU32, putU64]
  have hassoc : putU32 k.length ++ putU64 (i64ToU64 expv) ++ [storage.TypeString] ++ k ++
      storage.writeString v ++ rb
      = (putU32 k.length ++ putU64 (i64ToU64 expv) ++ [storage.TypeString]) ++
        (k ++ (storage.writeString v ++ rb)) := by
    simp [List.append_assoc]
  have hkl : leNat ((putU32 k.length ++ putU64 (i64ToU64 expv) ++ [storage.TypeString]).take 4)
      = k.length := by
    rw [List.append_assoc, List.take_left' h4]
    exact leNat_putU32 hk
  have hev : u64ToI64 (leNat (((putU32 k.length ++ putU64 (i64ToU64 expv) ++
      [storage.TypeString]).drop 4).take 8)) = expv := by
    rw [List.append_assoc, List.drop_left' h4, List.take_left' h8,
      leNat_putU64 (i64ToU64_lt expv), u64ToI64_i64ToU64 he0 he1]
  have htag : (putU32 k.length ++ putU64 (i64ToU64 expv) ++ [storage.TypeString]).getD 12 0
      = storage.TypeString := rfl
  have hrs : storage.readString (storage.writeString v ++ rb) = some (v, rb) := by
    have hws : storage.writeString v ++ rb = putU32 v.length ++ (v ++ rb) := by
      simp [storage.writeString, List.append_assoc]
    have h4v : (putU32 v.length).length = 4 := by simp [putU32]
    rw [hws]
    unfold storage.readString
    rw [List.take_left' h4v, List.drop_left' h4v, leNat_putU32 hv]
    rw [if_neg (by simp only [List.length_append, h4v]; omega)]
    rw [if_neg (by simp only [List.length_append]; omega)]
    rw [List.take_left, List.drop_left]
  rw [hassoc, storage.restoreLoop]
  rw [List.take_left' hA, List.drop_left' hA]
  simp only [hkl, hev, htag]
  rw [if_neg (by simp [putU32])]
  rw [if_neg (by simp only [List.length_append, hA]; omega)]
  rw [if_neg (by simp only [List.length_append]; omega)]
  rw [List.take_left, List.drop_left]
  simp only [eq_self_iff_true, if_true, hrs]

/-- Serialization of a String-only value table always succeeds. -/
theorem snapshotList_exists (expires : List (GoStr × Int)) :
    ∀ data : List (GoStr × storage.Entity),
      (∀ p ∈ data, p.2.typ = storage.TypeString ∧
        (match p.2.value with
         | .str v => v.length < 2 ^ 32
         | .interfaceNil => False)) →
      ∃ bs, storage.snapshotList expires data = some bs := by
  intro data
  induction data with
  | nil => exact fun _ => ⟨[], rfl⟩
  | cons p rest ih =>
    intro hstr
    obtain ⟨k, e⟩ := p
    obtain ⟨ht, hval⟩ := hstr (k, e) (List.mem_cons_self _ _)
    obtain ⟨rb, hrb⟩ := ih (fun q hq => hstr q (List.mem_cons_of_mem _ hq))
    obtain ⟨typ, val⟩ := e
    cases val with
    | interfaceNil => exact absurd hval (by simp)
    | str v =>
      simp only at ht
      subst ht
      refine ⟨putU32 k.length ++ putU64 (i64ToU64 ((alookup expires k).getD 0)) ++
        [storage.TypeString % 256] ++ k ++ storage.writeString v ++ rb, ?_⟩
      rw [storage.snapshotList, hrb]
      rfl

/-- Restoring the serialization of a String-only table with positive
in-range deadlines replays exactly the reference fold `restoreAccum`. -/
theorem snapshotList_restoreLoop (now : Int) (expires : List (GoStr × Int))
    (hexp : ∀ q ∈ expires, 0 < q.2 ∧ q.2 < 2 ^ 63) :
    ∀ (data : List (GoStr × storage.Entity)) (acc : storage.MapStorage)
      (bs : List Nat) (fuel : Nat),
      (∀ p ∈ data, p.2.typ = storage.TypeString ∧
        (match p.2.value with
         | .str v => v.length < 2 ^ 32
         | .interfaceNil => False)) →
      (∀ p ∈ data, p.1.length < 2 ^ 32) →
      storage.snapshotList expires data = some bs →
      bs.length < fuel →
      storage.restoreLoop now fuel acc bs
        = some (storage.restoreAccum now expires data acc) := by
  intro data
  induction data with
  | nil =>
    intro acc bs fuel _ _ hsnap hfuel
    have hbs : bs = [] := (Option.some.inj hsnap).symm
    subst hbs
    cases fuel with
    | zero => omega
    | succ f => simp [storage.restoreLoop, storage.restoreAccum]
  | cons p rest ih =>
    intro acc bs fuel hstr hklen hsnap hfuel
    obtain ⟨k, e⟩ := p
    obtain ⟨ht, hval⟩ := hstr (k, e) (List.mem_cons_self _ _)
    obtain ⟨typ, val⟩ := e
    cases val with
    | interfaceNil => exact absurd hval (by simp)
    | str v =>
      simp only at ht hval
      subst ht
      rw [storage.snapshotList] at hsnap
      cases hrest : storage.snapshotList expires rest with
      | none => rw [hrest] at hsnap; simp at hsnap
      | some rb =>
        rw [hrest] at hsnap
        have hsvb : storage.snapshotValueBytes ⟨storage.TypeString, storage.GoVal.str v⟩
            = some (storage.writeString v) := rfl
        rw [hsvb] at hsnap
        simp only [Option.some.injEq] at hsnap
        subst hsnap
        have hTS : storage.TypeString % 256 = storage.TypeString := rfl
        rw [hTS]
        have hbound : 0 ≤ (alookup expires k).getD 0 ∧ (alookup expires k).getD 0 < 2 ^ 63 := by
          cases halex : alookup expires k with
          | none => norm_num
          | some x =>
            have hx := hexp (k, x) (mem_of_alookup_eq_some halex)
            simp only [Option.getD_some]
            exact ⟨le_of_lt hx.1, hx.2⟩
        have hlen : (putU32 k.length ++ putU64 (i64ToU64 ((alookup expires k).getD 0)) ++
            [storage.TypeString % 256] ++ k ++ storage.writeString v ++ rb).length
            = 17 + k.length + v.length + rb.length := by
          simp [putU32, putU64, storage.writeString]
          omega
        cases fuel with
        | zero => omega
        | succ f =>
          rw [restoreLoop_record now f acc k v rb ((alookup expires k).getD 0)
            (hklen (k, ⟨storage.TypeString, storage.GoVal.str v⟩) (List.mem_cons_self _ _))
            hval hbound.1 hbound.2]
          have hstrRest := fun q hq => hstr q (List.mem_cons_of_mem _ hq)
          have hklenRest := fun q hq => hklen q (List.mem_cons_of_mem _ hq)
          have hfuelRest : rb.length < f := by
            rw [hlen] at hfuel
            omega
          simp only [storage.restoreAccum]
          by_cases hc : 0 < (alookup expires k).getD 0 ∧ (alookup expires k).getD 0 < now
          · rw [if_pos hc, if_pos hc]
            exact ih acc rb f hstrRest hklenRest hrest hfuelRest
          · rw [if_neg hc, if_neg hc]
            exact ih _ rb f hstrRest hklenRest hrest hfuelRest

/-- Lookup characterization of the reference fold on a table with
distinct keys. -/
theorem restoreAccum_lookup (now : Int) (expires : List (GoStr × Int)) :
    ∀ (data : List (GoStr × storage.Entity)) (acc : storage.MapStorage),
      (data.map Prod.fst).Nodup → ∀ k : GoStr,
      (alookup (storage.restoreAccum now expires data acc).data k
        = (match alookup data k with
           | some e =>
             if 0 < (alookup expires k).getD 0 ∧ (alookup expires k).getD 0 < now
             then alookup acc.data k else some e
           | none => alookup acc.data k))
      ∧ (alookup (storage.restoreAccum now expires data acc).expires k
        = (match alookup data k with
           | some _ =>
             if 0 < (alookup expires k).getD 0 ∧ (alookup expires k).getD 0 < now
             then alookup acc.expires k
             else if 0 < (alookup expires k).getD 0
                  then some ((alookup expires k).getD 0)
                  else alookup acc.expires k
           | none => alookup acc.expires k)) := by
  intro data
  induction data with
  | nil => exact fun acc _ k => ⟨rfl, rfl⟩
  | cons p rest ih =>
    intro acc hnd k
    obtain ⟨k0, e0⟩ := p
    simp only [List.map_cons, List.nodup_cons] at hnd
    by_cases hk : k0 = k
    · subst hk
      have hrest0 : alookup rest k0 = none :=
        alookup_eq_none_of_not_mem rest k0 hnd.1
      by_cases hc : 0 < (alookup expires k0).getD 0 ∧ (alookup expires k0).getD 0 < now
      · constructor
        · rw [storage.restoreAccum, if_pos hc, (ih acc hnd.2 k0).1, hrest0]
          simp [alookup, hc]
        · rw [storage.restoreAccum, if_pos hc, (ih acc hnd.2 k0).2, hrest0]
          simp [alookup, hc]
      · constructor
        · rw [storage.restoreAccum, if_neg hc, (ih _ hnd.2 k0).1, hrest0]
          simp [alookup, hc]
        · rw [storage.restoreAccum, if_neg hc, (ih _ hnd.2 k0).2, hrest0]
          by_cases hp : 0 < (alookup expires k0).getD 0
          · have hq : ¬(alookup expires k0).getD 0 < now := fun hq => hc ⟨hp, hq⟩
            simp [alookup, hc, hp, hq]
          · simp [alookup, hc, hp]
    · have hcons : alookup ((k0, e0) :: rest) k = alookup rest k := by
        simp [alookup, hk]
      have hd2 : alookup (ainsert acc.data k0 e0) k = alookup acc.data k :=
        alookup_ainsert_of_ne _ _ _ _ (fun he => hk he.symm)
      by_cases hc0 : 0 < (alookup expires k0).getD 0 ∧ (alookup expires k0).getD 0 < now
      · constructor
        · rw [storage.restoreAccum, if_pos hc0, (ih acc hnd.2 k).1, hcons]
        · rw [storage.restoreAccum, if_pos hc0, (ih acc hnd.2 k).2, hcons]
      · have hexp2 : alookup (if 0 < (alookup expires k0).getD 0
            then ainsert acc.expires k0 ((alookup expires k0).getD 0)
            else acc.expires) k = alookup acc.expires k := by
          split
          · exact alookup_ainsert_of_ne _ _ _ _ (fun he => hk he.symm)
          · rfl
        constructor
        · rw [storage.restoreAccum, if_neg hc0, (ih _ hnd.2 k).1, hcons, hd2]
        · rw [storage.restoreAccum, if_neg hc0, (ih _ hnd.2 k).2, hcons, hexp2]

/-- C3 amended: for a store of String values with distinct keys,
positive deadlines below 2^63, key and value lengths below 2^32, and
deadlines only for stored keys, restoring the snapshot into an empty
store succeeds and yields exactly the original entries except that a
key whose deadline is before restore time is dropped (both its value
and its deadline). -/
theorem pit_roundtrip_amended (now : Int) (m : storage.MapStorage) (k : GoStr)
    (hnd : (m.data.map Prod.fst).Nodup)
    (hstr : ∀ p ∈ m.data, p.2.typ = storage.TypeString ∧
        (match p.2.value with
         | .str v => v.length < 2 ^ 32
         | .interfaceNil => False))
    (hklen : ∀ p ∈ m.data, p.1.length < 2 ^ 32)
    (hexp : ∀ q ∈ m.expires, 0 < q.2 ∧ q.2 < 2 ^ 63)
    (hI2 : ∀ q ∈ m.expires, q.1 ∈ m.data.map Prod.fst) :
    (storage.Snapshot m).bind (storage.Restore now storage.NewMapStorage)
      = some (storage.restoreAccum now m.expires m.data storage.NewMapStorage)
    ∧ (∀ x, alookup m.expires k = some x → x < now →
        alookup (storage.restoreAccum now m.expires m.data storage.NewMapStorage).data k = none
        ∧ alookup (storage.restoreAccum now m.expires m.data storage.NewMapStorage).expires k
            = none)
    ∧ ((∀ x, alookup m.expires k = some x → now ≤ x) →
        alookup (storage.restoreAccum now m.expires m.data storage.NewMapStorage).data k
          = alookup m.data k
        ∧ alookup (storage.restoreAccum now m.expires m.data storage.NewMapStorage).expires k
          = alookup m.expires k) := by
  refine ⟨?_, ?_, ?_⟩
  · obtain ⟨bs, hbs⟩ := snapshotList_exists m.expires m.data hstr
    have h1 : storage.Snapshot m = some bs := hbs
    rw [h1]
    show storage.Restore now storage.NewMapStorage bs = _
    unfold storage.Restore
    exact snapshotList_restoreLoop now m.expires hexp m.data storage.NewMapStorage bs
      (bs.length + 1) hstr hklen hbs (by omega)
  · intro x hx hlt
    have hmem := hI2 (k, x) (mem_of_alookup_eq_some hx)
    obtain ⟨e, he⟩ := alookup_isSome_of_mem m.data k hmem
    have hpos := (hexp (k, x) (mem_of_alookup_eq_some hx)).1
    have h := restoreAccum_lookup now m.expires m.data storage.NewMapStorage hnd k
    constructor
    · rw [h.1, he, hx]
      simp only [Option.getD_some]
      rw [if_pos ⟨hpos, hlt⟩]
      rfl
    · rw [h.2, he, hx]
      simp only [Option.getD_some]
      rw [if_pos ⟨hpos, hlt⟩]
      rfl
  · intro hge
    have h := restoreAccum_lookup now m.expires m.data storage.NewMapStorage hnd k
    cases halex : alookup m.expires k with
    | none =>
      constructor
      · rw [h.1, halex]
        simp only [Option.getD_none]
        cases hdk : alookup m.data k with
        | none => rfl
        | some e => norm_num
      · rw [h.2, halex]
        simp only [Option.getD_none]
        cases hdk : alookup m.data k with
        | none => rfl
        | some e =>
          norm_num
          rfl
    | some x =>
      have hle := hge x halex
      have hpos := (hexp (k, x) (mem_of_alookup_eq_some halex)).1
      have hmem := hI2 (k, x) (mem_of_alookup_eq_some halex)
      obtain ⟨e, he⟩ := alookup_isSome_of_mem m.data k hmem
      constructor
      · rw [h.1, halex, he]
        simp only [Option.getD_some]
        rw [if_neg (fun hc => absurd hc.2 (not_lt.mpr hle))]
      · rw [h.2, halex, he]
        simp only [Option.getD_some]
        rw [if_neg (fun hc => absurd hc.2 (not_lt.mpr hle)), if_pos hpos]

/-- Witness for the amended C3: a two-key store in which key `a`
expired at 5 (observed at 10) and key `b` has no deadline; after the
round trip `a` is gone and `b` survives unchanged. -/
theorem pit_roundtrip_amended_witness :
    (storage.Snapshot ⟨[(gs "a", ⟨storage.TypeString, storage.GoVal.str (gs "1")⟩),
          (gs "b", ⟨storage.TypeString, storage.GoVal.str (gs "2")⟩)],
        [(gs "a", 5)]⟩).bind (storage.Restore 10 storage.NewMapStorage)
      = some (storage.restoreAccum 10 [(gs "a", 5)]
          [(gs "a", ⟨storage.TypeString, storage.GoVal.str (gs "1")⟩),
           (gs "b", ⟨storage.TypeString, storage.GoVal.str (gs "2")⟩)]
          storage.NewMapStorage)
    ∧ alookup (storage.restoreAccum 10 [(gs "a", 5)]
        [(gs "a", ⟨storage.TypeString, storage.GoVal.str (gs "1")⟩),
         (gs "b", ⟨storage.TypeString, storage.GoVal.str (gs "2")⟩)]
        storage.NewMapStorage).data (gs "a") = none
    ∧ alookup (storage.restoreAccum 10 [(gs "a", 5)]
        [(gs "a", ⟨storage.TypeString, storage.GoVal.str (gs "1")⟩),
         (gs "b", ⟨storage.TypeString, storage.GoVal.str (gs "2")⟩)]
        storage.NewMapStorage).expires (gs "a") = none
    ∧ alookup (storage.restoreAccum 10 [(gs "a", 5)]
        [(gs "a", ⟨storage.TypeString, storage.GoVal.str (gs "1")⟩),
         (gs "b", ⟨storage.TypeString, storage.GoVal.str (gs "2")⟩)]
        storage.NewMapStorage).data (gs "b")
      = some ⟨storage.TypeString, storage.GoVal.str (gs "2")⟩
    ∧ alookup (storage.restoreAccum 10 [(gs "a", 5)]
        [(gs "a", ⟨storage.TypeString, storage.GoVal.str (gs "1")⟩),
         (gs "b", ⟨storage.TypeString, storage.GoVal.str (gs "2")⟩)]
        storage.NewMapStorage).expires (gs "b") = none := by
  have hstr0 : ∀ p ∈ ([(gs "a", (⟨storage.TypeString, storage.GoVal.str (gs "1")⟩ :
        storage.Entity)),
      (gs "b", ⟨storage.TypeString, storage.GoVal.str (gs "2")⟩)] :
        List (GoStr × storage.Entity)),
      p.2.typ = storage.TypeString ∧
        (match p.2.value with
         | .str v => v.length < 2 ^ 32
         | .interfaceNil => False) := by
    intro p hp
    fin_cases hp
    · exact ⟨rfl, by decide⟩
    · exact ⟨rfl, by decide⟩
  have ha := pit_roundtrip_amended 10
    ⟨[(gs "a", ⟨storage.TypeString, storage.GoVal.str (gs "1")⟩),
      (gs "b", ⟨storage.TypeString, storage.GoVal.str (gs "2")⟩)], [(gs "a", 5)]⟩
    (gs "a") (by decide) hstr0 (by decide) (by decide) (by decide)
  have hb := pit_roundtrip_amended 10
    ⟨[(gs "a", ⟨storage.TypeString, storage.GoVal.str (gs "1")⟩),
      (gs "b", ⟨storage.TypeString, storage.GoVal.str (gs "2")⟩)], [(gs "a", 5)]⟩
    (gs "b") (by decide) hstr0 (by decide) (by decide) (by decide)
  refine ⟨ha.1, (ha.2.1 5 rfl (by norm_num)).1, (ha.2.1 5 rfl (by norm_num)).2, ?_, ?_⟩
  · exact ((hb.2.2 (fun x hx => Option.noConfusion hx)).1).trans rfl
  · exact ((hb.2.2 (fun x hx => Option.noConfusion hx)).2).trans rfl
